import Mathlib

/-!
# Shallow embedding of the Kolcoin SDK request pipeline

This development embeds the core of `src/services/apiService.ts` and the
helpers it uses from `src/utils/apiUtils.ts` of the `kolcoin-sdk`
repository, together with the SDK-level `dispose` from
`src/context/KolcoinProvider.tsx`, and proves the specified properties of
the request executor, cache, pending-request registry, backoff calculator,
constructor defaulting and domain methods.

Modelling conventions:
* JavaScript values flowing through `JSON.stringify` are modelled by the
  inductive `Json` type; `JSON.stringify` by `jsonStringify`.
* JavaScript numbers are modelled by `ℚ` where fractional values matter
  (backoff delays, transfer amounts) and by `Nat` for millisecond
  timestamps and counters.
* A JavaScript `Map` is modelled by an association list with
  replace-or-append insertion (`mapSet`), first-match lookup (`mapGet`)
  and removal (`mapDelete`), which matches the observable behaviour of
  `Map.set` / `Map.get` / `Map.delete` (a `Map` holds at most one entry
  per key).
* The asynchronous network call (`createCancellableFetch` + `await`) is
  replaced by an oracle `Env.net : Nat → NetOutcome` giving, for each
  successive network call of the run, either the settled response envelope
  or a thrown exception (the `catch` branch of `executeRequest`), and
  `Math.random()` draws are given by the oracle `Env.rand`.
* `Date.now()` is modelled as the ambient timestamp `ExecState.now`; the
  properties proved here do not depend on the clock advancing during a
  run, so the timestamp is threaded unchanged through the state.
* Mutable instance state (`this.cache`, `this.pendingRequests`) is made
  explicit in `ExecState`, which also records the cancel handles invoked
  (`cancelled`), the network calls performed (`netCalls`) and the backoff
  delays awaited (`delays`) as observable traces of the run.
-/

/-! ## JSON values and `JSON.stringify` -/

/-- A JSON value, the model of the `any`-typed `params`/`body` payloads. -/
inductive Json where
  | null : Json
  | bool : Bool → Json
  | num : ℚ → Json
  | str : String → Json
  | arr : List Json → Json
  | obj : List (String × Json) → Json

mutual

/-- Model of `JSON.stringify` on `Json` values (the exact rendering of
numbers is irrelevant to the proved properties; only functionality is). -/
def jsonStringify : Json → String
  | Json.null => "null"
  | Json.bool b => if b then "true" else "false"
  | Json.num q => toString q
  | Json.str s => "\"" ++ s ++ "\""
  | Json.arr xs => "[" ++ jsonStringifyArr xs ++ "]"
  | Json.obj fs => "\x7b" ++ jsonStringifyObj fs ++ "\x7d"

/-- Comma-separated rendering of a JSON array body. -/
def jsonStringifyArr : List Json → String
  | [] => ""
  | [x] => jsonStringify x
  | x :: y :: xs => jsonStringify x ++ "," ++ jsonStringifyArr (y :: xs)

/-- Comma-separated rendering of a JSON object body. -/
def jsonStringifyObj : List (String × Json) → String
  | [] => ""
  | [(k, v)] => "\"" ++ k ++ "\":" ++ jsonStringify v
  | (k, v) :: f :: fs => "\"" ++ k ++ "\":" ++ jsonStringify v ++ "," ++ jsonStringifyObj (f :: fs)

end

/-! ## Response envelopes and request configs (`src/types/index.ts`) -/

/-- The `error` member of an `ApiResponse` (`details` is dropped: no
proved property inspects it). -/
structure ApiError where
  code : String
  message : String

/-- `ApiResponse<T>`: the uniform envelope `{ success; data?; error? }`.
The payload type is fixed to `Json`. -/
structure ApiResponse where
  success : Bool
  data : Option Json
  error : Option ApiError

/-- `ApiRequestConfig`: a request descriptor. -/
structure ApiRequestConfig where
  endpoint : String
  method : String
  params : Option Json
  body : Option Json
  headers : Option (List (String × String))

/-- `TransactionParams` from `src/types/index.ts`. -/
structure TransactionParams where
  «from» : String
  «to» : String
  amount : ℚ
  memo : Option String

/-! ## Pure helpers from `src/utils/apiUtils.ts` -/

/-- One character of the character class `[1-9A-HJ-NP-Za-km-z]` (Base58). -/
def isBase58Char (c : Char) : Bool :=
  ('1' ≤ c && c ≤ '9') ||
  ('A' ≤ c && c ≤ 'H') || ('J' ≤ c && c ≤ 'N') || ('P' ≤ c && c ≤ 'Z') ||
  ('a' ≤ c && c ≤ 'k') || ('m' ≤ c && c ≤ 'z')

/-- `isValidSolanaAddress`: the regex `/^[1-9A-HJ-NP-Za-km-z]{32,44}$/`. -/
def isValidSolanaAddress (address : String) : Bool :=
  32 ≤ address.length && address.length ≤ 44 && address.toList.all isBase58Char

/-- `calculateBackoff` with the `Math.random()` draw `r` injected and the
base delay explicit: `min(10000, baseDelay * 2^attempt * (r*0.3 + 0.85))`. -/
def calculateBackoffWith (attempt : Nat) (baseDelay : ℚ) (r : ℚ) : ℚ :=
  let maxDelay : ℚ := 10000
  let jitter : ℚ := r * (3 / 10) + 17 / 20
  min maxDelay (baseDelay * 2 ^ attempt * jitter)

/-- `calculateBackoff` at its default `baseDelay = 300`. -/
def calculateBackoff (attempt : Nat) (r : ℚ) : ℚ :=
  calculateBackoffWith attempt 300 r

/-! ## Association-list model of JavaScript `Map` -/

/-- `Map.get`: first binding of the key, if any. -/
def mapGet {α : Type} (m : List (String × α)) (k : String) : Option α :=
  match m with
  | [] => none
  | (k', v) :: rest => if k' = k then some v else mapGet rest k

/-- `Map.set`: replace the binding in place, or append a fresh one. -/
def mapSet {α : Type} (m : List (String × α)) (k : String) (v : α) :
    List (String × α) :=
  match m with
  | [] => [(k, v)]
  | (k', v') :: rest =>
    if k' = k then (k, v) :: rest else (k', v') :: mapSet rest k v

/-- `Map.delete`: remove every binding of the key. -/
def mapDelete {α : Type} (m : List (String × α)) (k : String) :
    List (String × α) :=
  match m with
  | [] => []
  | (k', v) :: rest =>
    if k' = k then mapDelete rest k else (k', v) :: mapDelete rest k

/-! ## The in-memory `ApiCache` (`src/services/apiService.ts`, lines 37-73) -/

/-- One cache slot: `\x7b data; expiry \x7d`. -/
structure CacheEntry where
  data : ApiResponse
  expiry : Nat

/-- The cache's backing store `Map<string, \x7b data; expiry \x7d>`. -/
def CacheStore : Type := List (String × CacheEntry)

/-- `ApiCache.set`: store with `expiry = now + ttlMs`, overwriting. -/
def cacheSet (now : Nat) (c : CacheStore) (key : String)
    (data : ApiResponse) (ttlMs : Nat) : CacheStore :=
  mapSet c key { data := data, expiry := now + ttlMs }

/-- `ApiCache.get`: the returned value together with the store after the
lookup (an expired entry is deleted on read). -/
def cacheGet (now : Nat) (c : CacheStore) (key : String) :
    Option ApiResponse × CacheStore :=
  match mapGet c key with
  | none => (none, c)
  | some entry =>
    if now > entry.expiry then (none, mapDelete c key)
    else (some entry.data, c)

/-- `ApiCache.clearExpired`: the periodic sweep body. -/
def cacheClearExpired (now : Nat) (c : CacheStore) : CacheStore :=
  c.filter (fun p => !(now > p.2.expiry))

/-! ## Constructor option defaulting (`KolcoinApiService.constructor`) -/

/-- The option bag `ApiServiceOptions` (credentials and logger omitted:
no proved property inspects them). `none` models an absent field. -/
structure ApiServiceOptions where
  autoRetry : Option Bool
  maxRetries : Option Nat
  cacheTime : Option Nat

/-- The effective per-instance configuration set by the constructor. -/
structure ServiceConfig where
  autoRetry : Bool
  maxRetries : Nat
  cacheTime : Nat

/-- JavaScript `v || d` for an optional number: `0` is falsy. -/
def jsOrDefault (v : Option Nat) (d : Nat) : Nat :=
  match v with
  | some n => if n = 0 then d else n
  | none => d

/-- The constructor's option handling:
`autoRetry = options.autoRetry !== false`,
`maxRetries = options.maxRetries || 3`,
`cacheTime = options.cacheTime || 60000`. -/
def mkServiceConfig (options : ApiServiceOptions) : ServiceConfig :=
  { autoRetry := options.autoRetry ≠ some false,
    maxRetries := jsOrDefault options.maxRetries 3,
    cacheTime := jsOrDefault options.cacheTime 60000 }

/-! ## The request executor (`executeRequest`, lines 110-216) -/

/-- `createRequestId` (lines 103-105):
`method:endpoint:JSON.stringify(params || \x7b\x7d):JSON.stringify(body || \x7b\x7d)`. -/
def createRequestId (config : ApiRequestConfig) : String :=
  config.method ++ ":" ++ config.endpoint ++ ":" ++
    jsonStringify (config.params.getD (Json.obj [])) ++ ":" ++
    jsonStringify (config.body.getD (Json.obj []))

/-- The settlement of one network call: the envelope the awaited promise
resolved to, or a thrown exception caught by the `catch` branch. -/
inductive NetOutcome where
  | normal : ApiResponse → NetOutcome
  | thrown : String → NetOutcome

/-- The run's environment: the outcome of the `i`-th network call and the
`i`-th `Math.random()` draw of the backoff calculator. -/
structure Env where
  net : Nat → NetOutcome
  rand : Nat → ℚ

/-- The mutable instance state threaded through a run, plus observable
traces: `cancelled` lists the cancel handles invoked (in order), handles
being numbered by `nextHandle`; `netCalls` counts network calls performed;
`delays` lists the backoff delays awaited. -/
structure ExecState where
  now : Nat
  cache : CacheStore
  pending : List (String × Nat)
  cancelled : List Nat
  nextHandle : Nat
  netCalls : Nat
  delays : List ℚ

/-- Lines 130-135: a pending duplicate for the key is cancelled and
removed from the registry. -/
def dedupStep (requestId : String) (st : ExecState) : ExecState :=
  match mapGet st.pending requestId with
  | some handle =>
    { st with cancelled := st.cancelled ++ [handle],
              pending := mapDelete st.pending requestId }
  | none => st

/-- Lines 157-160: a fresh cancellable call is created and its cancel
handle registered under the key. -/
def registerStep (requestId : String) (st : ExecState) : ExecState :=
  { st with pending := mapSet st.pending requestId st.nextHandle,
            nextHandle := st.nextHandle + 1 }

/-- Lines 163-166 (and 204-205): the network call settles — `netCalls`
advances past the consumed oracle entry and the key leaves the registry. -/
def settleStep (requestId : String) (st : ExecState) : ExecState :=
  { st with pending := mapDelete st.pending requestId,
            netCalls := st.netCalls + 1 }

/-- Model of `String.prototype.startsWith`: the pattern is a prefix of the
string (stated on character lists so that it evaluates by `decide`). -/
def strStartsWith (s pattern : String) : Bool :=
  pattern.toList.isPrefixOf s.toList

/-- Lines 170-171: `error?.code?.startsWith('HTTP_5') || error?.code ===
'NETWORK_ERROR'` (optional chaining: a missing `error` yields `false`). -/
def shouldRetryResp (response : ApiResponse) : Bool :=
  match response.error with
  | some e => strStartsWith e.code "HTTP_5" || e.code == "NETWORK_ERROR"
  | none => false

/-- Lines 207-214: the `catch` branch's `REQUEST_FAILED` envelope. -/
def requestFailedResp (msg : String) : ApiResponse :=
  { success := false, data := none,
    error := some { code := "REQUEST_FAILED", message := msg } }

/-- `executeRequest` (lines 110-216). The two nested retry conditionals of
the source (`!success && autoRetry && retryCount < maxRetries` outside,
`shouldRetry` inside) are flattened into one conjunction: when the outer
test passes and `shouldRetry` fails, the source falls through to the
response-caching check, which the failed response skips, and returns the
response — exactly the `else` branches here. -/
def executeRequest (sc : ServiceConfig) (env : Env) (config : ApiRequestConfig)
    (useCache bypassCache : Bool) (retryCount : Nat) (st : ExecState) :
    ApiResponse × ExecState :=
  let requestId := createRequestId config
  let cacheLookup :=
    if useCache && !bypassCache then cacheGet st.now st.cache requestId
    else (none, st.cache)
  match cacheLookup with
  | (some cachedData, cache') => (cachedData, { st with cache := cache' })
  | (none, cache') =>
    let st1 := dedupStep requestId { st with cache := cache' }
    let st2 := registerStep requestId st1
    match env.net st2.netCalls with
    | NetOutcome.thrown msg => (requestFailedResp msg, settleStep requestId st2)
    | NetOutcome.normal response =>
      let st3 := settleStep requestId st2
      if hretry : response.success = false ∧ sc.autoRetry = true ∧
          retryCount < sc.maxRetries ∧ shouldRetryResp response = true then
        let delay := calculateBackoff retryCount (env.rand st3.delays.length)
        let st4 := { st3 with delays := st3.delays ++ [delay] }
        executeRequest sc env config useCache true (retryCount + 1) st4
      else if response.success && useCache then
        (response,
         { st3 with cache := cacheSet st3.now st3.cache requestId response sc.cacheTime })
      else
        (response, st3)
termination_by sc.maxRetries - retryCount
decreasing_by
  obtain ⟨-, -, h, -⟩ := hretry
  omega

/-- The state at settlement of the first network call of a run that
reached the network (cache pruned by the missed lookup, duplicate
cancelled, fresh handle registered and removed again, oracle advanced). -/
def settledAt (config : ApiRequestConfig) (useCache bypassCache : Bool)
    (st : ExecState) : ExecState :=
  let requestId := createRequestId config
  let cache' :=
    if useCache && !bypassCache then (cacheGet st.now st.cache requestId).2
    else st.cache
  settleStep requestId (registerStep requestId (dedupStep requestId { st with cache := cache' }))

/-- The state passed to the recursive retry call: the settled state with
the awaited backoff delay recorded. -/
def retryState (env : Env) (config : ApiRequestConfig)
    (useCache bypassCache : Bool) (retryCount : Nat) (st : ExecState) : ExecState :=
  let s := settledAt config useCache bypassCache st
  { s with delays := s.delays ++ [calculateBackoff retryCount (env.rand s.delays.length)] }

/-! ## Domain methods (lines 247-339) -/

/-- The `INVALID_WALLET` envelope of the single-wallet methods. -/
def invalidWalletResp : ApiResponse :=
  { success := false, data := none,
    error := some { code := "INVALID_WALLET",
                    message := "The provided wallet address is invalid" } }

/-- The `INVALID_WALLET` envelope of `transferTokens`. -/
def invalidWalletsResp : ApiResponse :=
  { success := false, data := none,
    error := some { code := "INVALID_WALLET",
                    message := "One or more wallet addresses are invalid" } }

/-- The `INVALID_AMOUNT` envelope of `transferTokens`. -/
def invalidAmountResp : ApiResponse :=
  { success := false, data := none,
    error := some { code := "INVALID_AMOUNT",
                    message := "Transfer amount must be greater than zero" } }

/-- `checkVerificationStatus` (lines 247-263). -/
def checkVerificationStatus (sc : ServiceConfig) (env : Env) (wallet : String)
    (st : ExecState) : ApiResponse × ExecState :=
  if !isValidSolanaAddress wallet then (invalidWalletResp, st)
  else
    executeRequest sc env
      { endpoint := "/verification/status", method := "GET",
        params := some (Json.obj [("wallet", Json.str wallet)]),
        body := none, headers := none }
      true false 0 st

/-- `checkWhitelistStatus` (lines 268-284). -/
def checkWhitelistStatus (sc : ServiceConfig) (env : Env) (walletAddress : String)
    (st : ExecState) : ApiResponse × ExecState :=
  if !isValidSolanaAddress walletAddress then (invalidWalletResp, st)
  else
    executeRequest sc env
      { endpoint := "/whitelist/check", method := "POST",
        params := none,
        body := some (Json.obj [("walletAddress", Json.str walletAddress)]),
        headers := none }
      true false 0 st

/-- `getKolMetrics` (lines 289-305). -/
def getKolMetrics (sc : ServiceConfig) (env : Env) (wallet : String)
    (st : ExecState) : ApiResponse × ExecState :=
  if !isValidSolanaAddress wallet then (invalidWalletResp, st)
  else
    executeRequest sc env
      { endpoint := "/metrics/kol", method := "GET",
        params := some (Json.obj [("wallet", Json.str wallet)]),
        body := none, headers := none }
      true false 0 st

/-- The JSON body of a transfer request (`JSON.stringify` omits an absent
optional `memo`). -/
def transactionParamsJson (p : TransactionParams) : Json :=
  Json.obj
    ([("from", Json.str p.«from»), ("to", Json.str p.«to»),
      ("amount", Json.num p.amount)] ++
     (match p.memo with
      | some m => [("memo", Json.str m)]
      | none => []))

/-- `transferTokens` (lines 310-339): wallet validation, amount
validation, then execution with `useCache := false`. -/
def transferTokens (sc : ServiceConfig) (env : Env) (params : TransactionParams)
    (st : ExecState) : ApiResponse × ExecState :=
  if !isValidSolanaAddress params.«from» || !isValidSolanaAddress params.«to» then
    (invalidWalletsResp, st)
  else if params.amount ≤ 0 then
    (invalidAmountResp, st)
  else
    executeRequest sc env
      { endpoint := "/token/transfer", method := "POST",
        params := none, body := some (transactionParamsJson params),
        headers := none }
      false false 0 st

/-! ## Teardown (`cancelAllRequests`, lines 236-242, and
`KolcoinSDK.dispose`, `src/context/KolcoinProvider.tsx` lines 494-504) -/

/-- `cancelAllRequests`: invoke every stored cancel handle (in registry
order), then clear the registry. -/
def cancelAllRequests (st : ExecState) : ExecState :=
  { st with cancelled := st.cancelled ++ st.pending.map Prod.snd,
            pending := [] }

/-- The SDK-level state relevant to disposal: the API service state, the
flag of the periodic cache-sweep interval started by the `KolcoinApiService`
constructor (line 97; its id is discarded, the source keeps no reference to
it), and the event service's listener registry. -/
structure SdkState where
  exec : ExecState
  sweepTimerActive : Bool
  listeners : List String

/-- Constructing the service (lines 88-98): the periodic sweep interval is
started, so the timer is active from construction on. -/
def constructSdkState (exec : ExecState) (listeners : List String) : SdkState :=
  { exec := exec, sweepTimerActive := true, listeners := listeners }

/-- `KolcoinSDK.dispose` (KolcoinProvider.tsx lines 494-504): calls
`apiService.cancelAllRequests()` and `eventService.removeAllListeners()`.
No statement of `dispose` (or of any other reachable code) calls
`clearInterval`, so the sweep-timer flag is left untouched. -/
def dispose (s : SdkState) : SdkState :=
  { s with exec := cancelAllRequests s.exec, listeners := [] }

/-! ## Concrete sample values used by witnesses -/

/-- A successful sample envelope. -/
def respOk : ApiResponse :=
  { success := true, data := some (Json.str "ok"), error := none }

/-- A transient server-error envelope. -/
def resp500 : ApiResponse :=
  { success := false, data := none,
    error := some { code := "HTTP_500", message := "server error" } }

/-- A non-transient client-error envelope. -/
def resp404 : ApiResponse :=
  { success := false, data := none,
    error := some { code := "HTTP_404", message := "not found" } }

/-- An environment whose network always answers `HTTP_500`. -/
def envAlways500 : Env :=
  { net := fun _ => NetOutcome.normal resp500, rand := fun _ => 1 / 2 }

/-- An environment whose network always answers `HTTP_404`. -/
def envAlways404 : Env :=
  { net := fun _ => NetOutcome.normal resp404, rand := fun _ => 1 / 2 }

/-- An environment whose network always succeeds. -/
def envAlwaysOk : Env :=
  { net := fun _ => NetOutcome.normal respOk, rand := fun _ => 1 / 2 }

/-- A fresh instance state at time 1000. -/
def stEmpty : ExecState :=
  { now := 1000, cache := [], pending := [], cancelled := [],
    nextHandle := 0, netCalls := 0, delays := [] }

/-- The configuration produced by a constructor call with no options. -/
def scDefault : ServiceConfig :=
  mkServiceConfig { autoRetry := none, maxRetries := none, cacheTime := none }

/-- A sample request descriptor. -/
def cfgSample : ApiRequestConfig :=
  { endpoint := "/verification/status", method := "GET",
    params := some (Json.obj [("wallet", Json.str "w")]),
    body := none, headers := none }

/-- A valid Base58 wallet address (32 ones). -/
def addrA : String := "11111111111111111111111111111111"

/-- A valid Base58 wallet address (32 twos). -/
def addrB : String := "22222222222222222222222222222222"

/-- A registry state with an in-flight entry (handle 7) for `cfgSample`. -/
def stWithPending : ExecState :=
  { stEmpty with pending := [(createRequestId cfgSample, 7)], nextHandle := 8 }

/-- A descriptor equal to `cfgSample` except for extra headers. -/
def cfgSampleHeaders : ApiRequestConfig :=
  { cfgSample with headers := some [("X-Extra", "1")] }

/-- A transfer of amount 0 between two valid wallets. -/
def pTransferZero : TransactionParams :=
  { «from» := addrA, «to» := addrB, amount := 0, memo := none }

/-- A transfer of amount 1 between two valid wallets. -/
def pTransferValid : TransactionParams :=
  { «from» := addrA, «to» := addrB, amount := 1, memo := none }

/-- Options with explicit falsy numeric fields. -/
def optsZero : ApiServiceOptions :=
  { autoRetry := some true, maxRetries := some 0, cacheTime := some 0 }

/-! ## Association-list lemmas -/

theorem mapGet_mapSet_self {α : Type} (m : List (String × α)) (k : String) (v : α) :
    mapGet (mapSet m k v) k = some v := by
  induction m with
  | nil => simp [mapSet, mapGet]
  | cons p rest ih =>
    obtain ⟨k', v'⟩ := p
    by_cases h : k' = k <;> simp [mapSet, mapGet, h, ih]

theorem mapGet_mapDelete_self {α : Type} (m : List (String × α)) (k : String) :
    mapGet (mapDelete m k) k = none := by
  induction m with
  | nil => simp [mapDelete, mapGet]
  | cons p rest ih =>
    obtain ⟨k', v'⟩ := p
    by_cases h : k' = k <;> simp [mapDelete, mapGet, h, ih]

theorem mapDelete_mapSet_self {α : Type} (m : List (String × α)) (k : String) (v : α) :
    mapDelete (mapSet m k v) k = mapDelete m k := by
  induction m with
  | nil => simp [mapSet, mapDelete]
  | cons p rest ih =>
    obtain ⟨k', v'⟩ := p
    by_cases h : k' = k <;> simp [mapSet, mapDelete, h, ih]

theorem mapDelete_eq_self_of_get_none {α : Type} (m : List (String × α)) (k : String)
    (h : mapGet m k = none) : mapDelete m k = m := by
  induction m with
  | nil => simp [mapDelete]
  | cons p rest ih =>
    obtain ⟨k', v'⟩ := p
    by_cases hk : k' = k
    · simp [mapGet, hk] at h
    · simp [mapGet, hk] at h
      simp [mapDelete, hk, ih h]

theorem mapDelete_idem {α : Type} (m : List (String × α)) (k : String) :
    mapDelete (mapDelete m k) k = mapDelete m k :=
  mapDelete_eq_self_of_get_none _ _ (mapGet_mapDelete_self m k)

/-! ## Projection lemmas for the executor's steps -/

@[simp] theorem dedupStep_now (r : String) (s : ExecState) :
    (dedupStep r s).now = s.now := by
  unfold dedupStep; cases mapGet s.pending r <;> rfl

@[simp] theorem dedupStep_cache (r : String) (s : ExecState) :
    (dedupStep r s).cache = s.cache := by
  unfold dedupStep; cases mapGet s.pending r <;> rfl

@[simp] theorem dedupStep_netCalls (r : String) (s : ExecState) :
    (dedupStep r s).netCalls = s.netCalls := by
  unfold dedupStep; cases mapGet s.pending r <;> rfl

@[simp] theorem dedupStep_delays (r : String) (s : ExecState) :
    (dedupStep r s).delays = s.delays := by
  unfold dedupStep; cases mapGet s.pending r <;> rfl

@[simp] theorem dedupStep_nextHandle (r : String) (s : ExecState) :
    (dedupStep r s).nextHandle = s.nextHandle := by
  unfold dedupStep; cases mapGet s.pending r <;> rfl

theorem dedupStep_pending (r : String) (s : ExecState) :
    (dedupStep r s).pending = mapDelete s.pending r := by
  unfold dedupStep
  cases h : mapGet s.pending r with
  | none => exact (mapDelete_eq_self_of_get_none s.pending r h).symm
  | some v => rfl

theorem dedupStep_cancelled_sub (r : String) (s : ExecState) :
    ∀ x ∈ s.cancelled, x ∈ (dedupStep r s).cancelled := by
  unfold dedupStep
  cases mapGet s.pending r <;> simp +contextual

theorem dedupStep_cancelled_of_get (r : String) (s : ExecState) (h : Nat)
    (hh : mapGet s.pending r = some h) : h ∈ (dedupStep r s).cancelled := by
  unfold dedupStep
  rw [hh]
  simp

@[simp] theorem settledAt_now (config : ApiRequestConfig) (u b : Bool) (st : ExecState) :
    (settledAt config u b st).now = st.now := by
  unfold settledAt registerStep settleStep; simp

@[simp] theorem settledAt_netCalls (config : ApiRequestConfig) (u b : Bool) (st : ExecState) :
    (settledAt config u b st).netCalls = st.netCalls + 1 := by
  unfold settledAt registerStep settleStep; simp

@[simp] theorem settledAt_delays (config : ApiRequestConfig) (u b : Bool) (st : ExecState) :
    (settledAt config u b st).delays = st.delays := by
  unfold settledAt registerStep settleStep; simp

theorem settledAt_cache (config : ApiRequestConfig) (u b : Bool) (st : ExecState) :
    (settledAt config u b st).cache =
      if u && !b then (cacheGet st.now st.cache (createRequestId config)).2
      else st.cache := by
  unfold settledAt registerStep settleStep; simp

theorem settledAt_pending (config : ApiRequestConfig) (u b : Bool) (st : ExecState) :
    (settledAt config u b st).pending =
      mapDelete st.pending (createRequestId config) := by
  unfold settledAt registerStep settleStep
  simp [dedupStep_pending, mapDelete_mapSet_self, mapDelete_idem]

theorem settledAt_cancelled_sub (config : ApiRequestConfig) (u b : Bool) (st : ExecState) :
    ∀ x ∈ st.cancelled, x ∈ (settledAt config u b st).cancelled := by
  intro x hx
  unfold settledAt registerStep settleStep
  exact dedupStep_cancelled_sub _ _ x hx

theorem settledAt_cancelled_of_get (config : ApiRequestConfig) (u b : Bool)
    (st : ExecState) (h : Nat)
    (hh : mapGet st.pending (createRequestId config) = some h) :
    h ∈ (settledAt config u b st).cancelled := by
  unfold settledAt registerStep settleStep
  exact dedupStep_cancelled_of_get _ _ h hh

@[simp] theorem retryState_now (env : Env) (config : ApiRequestConfig) (u b : Bool)
    (rc : Nat) (st : ExecState) : (retryState env config u b rc st).now = st.now := by
  unfold retryState; simp

@[simp] theorem retryState_netCalls (env : Env) (config : ApiRequestConfig) (u b : Bool)
    (rc : Nat) (st : ExecState) :
    (retryState env config u b rc st).netCalls = st.netCalls + 1 := by
  unfold retryState; simp

theorem retryState_pending (env : Env) (config : ApiRequestConfig) (u b : Bool)
    (rc : Nat) (st : ExecState) :
    (retryState env config u b rc st).pending =
      mapDelete st.pending (createRequestId config) := by
  unfold retryState; simp [settledAt_pending]

theorem retryState_cache (env : Env) (config : ApiRequestConfig) (u b : Bool)
    (rc : Nat) (st : ExecState) :
    (retryState env config u b rc st).cache =
      if u && !b then (cacheGet st.now st.cache (createRequestId config)).2
      else st.cache := by
  unfold retryState; simp [settledAt_cache]

theorem retryState_delays (env : Env) (config : ApiRequestConfig) (u b : Bool)
    (rc : Nat) (st : ExecState) :
    (retryState env config u b rc st).delays =
      st.delays ++ [calculateBackoff rc (env.rand st.delays.length)] := by
  unfold retryState; simp

theorem retryState_cancelled_sub (env : Env) (config : ApiRequestConfig) (u b : Bool)
    (rc : Nat) (st : ExecState) :
    ∀ x ∈ st.cancelled, x ∈ (retryState env config u b rc st).cancelled := by
  intro x hx
  unfold retryState
  exact settledAt_cancelled_sub config u b st x hx

theorem retryState_cancelled_of_get (env : Env) (config : ApiRequestConfig) (u b : Bool)
    (rc : Nat) (st : ExecState) (h : Nat)
    (hh : mapGet st.pending (createRequestId config) = some h) :
    h ∈ (retryState env config u b rc st).cancelled := by
  unfold retryState
  exact settledAt_cancelled_of_get config u b st h hh

/-! ## One-step unfolding of the executor past the cache check -/

theorem executeRequest_step (sc : ServiceConfig) (env : Env) (config : ApiRequestConfig)
    (u b : Bool) (rc : Nat) (st : ExecState)
    (hmiss : u = true → b = false →
      (cacheGet st.now st.cache (createRequestId config)).1 = none) :
    executeRequest sc env config u b rc st =
      match env.net st.netCalls with
      | NetOutcome.thrown msg => (requestFailedResp msg, settledAt config u b st)
      | NetOutcome.normal response =>
        if response.success = false ∧ sc.autoRetry = true ∧
            rc < sc.maxRetries ∧ shouldRetryResp response = true then
          executeRequest sc env config u true (rc + 1) (retryState env config u b rc st)
        else if response.success && u then
          (response,
           { settledAt config u b st with
               cache := cacheSet (settledAt config u b st).now
                          (settledAt config u b st).cache
                          (createRequestId config) response sc.cacheTime })
        else (response, settledAt config u b st) := by
  have hcl : (if u && !b then cacheGet st.now st.cache (createRequestId config)
              else (none, st.cache))
      = (none, if u && !b then (cacheGet st.now st.cache (createRequestId config)).2
               else st.cache) := by
    cases hu : u <;> cases hb : b <;> simp_all
    rw [Prod.ext_iff]
    exact ⟨hmiss, rfl⟩
  conv_lhs => rw [executeRequest]
  simp only [hcl, dedupStep_netCalls]
  unfold retryState settledAt
  simp only [hcl, dedupStep_netCalls, settleStep, registerStep, dite_eq_ite]

/-! ## Whole-run invariants of the executor -/

theorem executeRequest_run_spec :
    ∀ (fuel : Nat) (sc : ServiceConfig) (env : Env) (config : ApiRequestConfig)
      (u b : Bool) (rc : Nat) (st : ExecState),
    sc.maxRetries - rc ≤ fuel → (u && !b) = false →
    (executeRequest sc env config u b rc st).2.pending
        = mapDelete st.pending (createRequestId config)
    ∧ (∀ x ∈ st.cancelled, x ∈ (executeRequest sc env config u b rc st).2.cancelled)
    ∧ (u = false → (executeRequest sc env config u b rc st).2.cache = st.cache)
    ∧ st.netCalls + 1 ≤ (executeRequest sc env config u b rc st).2.netCalls
    ∧ (executeRequest sc env config u b rc st).2.netCalls
        ≤ st.netCalls + (sc.maxRetries - rc) + 1 := by
  intro fuel
  induction fuel with
  | zero =>
    intro sc env config u b rc st hf hub
    have hmiss : u = true → b = false →
        (cacheGet st.now st.cache (createRequestId config)).1 = none := by
      intro hu hb; rw [hu, hb] at hub; simp at hub
    rw [executeRequest_step sc env config u b rc st hmiss]
    cases hout : env.net st.netCalls with
    | thrown msg =>
      refine ⟨settledAt_pending _ _ _ _, settledAt_cancelled_sub _ _ _ _, ?_, ?_, ?_⟩
      · intro _; rw [settledAt_cache, hub]; rfl
      · simp
      · simp
    | normal response =>
      dsimp only
      by_cases hc : response.success = false ∧ sc.autoRetry = true ∧
          rc < sc.maxRetries ∧ shouldRetryResp response = true
      · exact absurd hf (by have := hc.2.2.1; omega)
      · rw [if_neg hc]
        by_cases hsu : (response.success && u) = true
        · rw [if_pos hsu]
          refine ⟨settledAt_pending _ _ _ _, settledAt_cancelled_sub _ _ _ _, ?_, ?_, ?_⟩
          · intro hu; rw [hu] at hsu; simp at hsu
          · simp
          · simp
        · rw [if_neg hsu]
          refine ⟨settledAt_pending _ _ _ _, settledAt_cancelled_sub _ _ _ _, ?_, ?_, ?_⟩
          · intro _; rw [settledAt_cache, hub]; rfl
          · simp
          · simp
  | succ n ih =>
    intro sc env config u b rc st hf hub
    have hmiss : u = true → b = false →
        (cacheGet st.now st.cache (createRequestId config)).1 = none := by
      intro hu hb; rw [hu, hb] at hub; simp at hub
    rw [executeRequest_step sc env config u b rc st hmiss]
    cases hout : env.net st.netCalls with
    | thrown msg =>
      refine ⟨settledAt_pending _ _ _ _, settledAt_cancelled_sub _ _ _ _, ?_, ?_, ?_⟩
      · intro _; rw [settledAt_cache, hub]; rfl
      · simp
      · simp
    | normal response =>
      dsimp only
      by_cases hc : response.success = false ∧ sc.autoRetry = true ∧
          rc < sc.maxRetries ∧ shouldRetryResp response = true
      · rw [if_pos hc]
        have hub' : (u && !true) = false := by simp
        have hf' : sc.maxRetries - (rc + 1) ≤ n := by
          have := hc.2.2.1; omega
        obtain ⟨p1, p2, p3, p4, p5⟩ :=
          ih sc env config u true (rc + 1) (retryState env config u b rc st) hf' hub'
        refine ⟨?_, ?_, ?_, ?_, ?_⟩
        · rw [p1, retryState_pending, mapDelete_idem]
        · intro x hx
          exact p2 x (retryState_cancelled_sub env config u b rc st x hx)
        · intro hu
          rw [p3 hu, retryState_cache, hub]; rfl
        · have := retryState_netCalls env config u b rc st; omega
        · have h1 := retryState_netCalls env config u b rc st
          have h2 := hc.2.2.1
          omega
      · rw [if_neg hc]
        by_cases hsu : (response.success && u) = true
        · rw [if_pos hsu]
          refine ⟨settledAt_pending _ _ _ _, settledAt_cancelled_sub _ _ _ _, ?_, ?_, ?_⟩
          · intro hu; rw [hu] at hsu; simp at hsu
          · simp
          · simp
        · rw [if_neg hsu]
          refine ⟨settledAt_pending _ _ _ _, settledAt_cancelled_sub _ _ _ _, ?_, ?_, ?_⟩
          · intro _; rw [settledAt_cache, hub]; rfl
          · simp
          · simp

/-! ## Claim theorems -/

/-- C2: for every pair of request configs whose method, endpoint, params
and body are equal as values, `createRequestId` agrees; the key is the
pure content function `method:endpoint:JSON(params):JSON(body)` and
depends on no other field of the config (in particular not on headers). -/
theorem requestKey_deterministic (c1 c2 : ApiRequestConfig)
    (hm : c1.method = c2.method) (he : c1.endpoint = c2.endpoint)
    (hp : c1.params = c2.params) (hb : c1.body = c2.body) :
    createRequestId c1 = createRequestId c2
    ∧ createRequestId c1
        = c1.method ++ ":" ++ c1.endpoint ++ ":" ++
          jsonStringify (c1.params.getD (Json.obj [])) ++ ":" ++
          jsonStringify (c1.body.getD (Json.obj [])) := by
  refine ⟨?_, rfl⟩
  unfold createRequestId
  rw [hm, he, hp, hb]

/-- Witness for C2: two configs equal in content but with different
headers receive the same request key. -/
theorem requestKey_deterministic_witness :
    createRequestId cfgSample = createRequestId cfgSampleHeaders :=
  (requestKey_deterministic cfgSample cfgSampleHeaders rfl rfl rfl rfl).1

/-- C3: after `set key value ttl` at time `now` the stored entry has
expiry `now + ttl`, overwriting any previous entry for the key; a `get`
at time `t ≤ expiry` returns the stored value and leaves the store as is,
while a `get` at `t > expiry` returns absence and removes the entry. -/
theorem cache_set_get_spec (c : CacheStore) (key : String) (d : ApiResponse)
    (ttl now : Nat) :
    mapGet (cacheSet now c key d ttl) key
      = some { data := d, expiry := now + ttl }
    ∧ (∀ t, t ≤ now + ttl →
        cacheGet t (cacheSet now c key d ttl) key
          = (some d, cacheSet now c key d ttl))
    ∧ (∀ t, now + ttl < t →
        cacheGet t (cacheSet now c key d ttl) key
          = (none, mapDelete (cacheSet now c key d ttl) key)
        ∧ mapGet (cacheGet t (cacheSet now c key d ttl) key).2 key = none) := by
  have hg : mapGet (cacheSet now c key d ttl) key
      = some { data := d, expiry := now + ttl } :=
    mapGet_mapSet_self c key _
  refine ⟨hg, fun t ht => ?_, fun t ht => ?_⟩
  · unfold cacheGet
    rw [hg]
    dsimp only
    rw [if_neg (by omega : ¬ t > now + ttl)]
  · have h1 : cacheGet t (cacheSet now c key d ttl) key
        = (none, mapDelete (cacheSet now c key d ttl) key) := by
      unfold cacheGet
      rw [hg]
      dsimp only
      rw [if_pos (by omega : t > now + ttl)]
    exact ⟨h1, by rw [h1]; exact mapGet_mapDelete_self _ _⟩

/-- Witness for C3: an entry cached at 1000 with TTL 60 is served at 1059
and is gone (absence, entry removed) at 1061. -/
theorem cache_set_get_witness :
    cacheGet 1059 (cacheSet 1000 [] "k" respOk 60) "k"
      = (some respOk, cacheSet 1000 [] "k" respOk 60)
    ∧ cacheGet 1061 (cacheSet 1000 [] "k" respOk 60) "k"
      = (none, mapDelete (cacheSet 1000 [] "k" respOk 60) "k") :=
  ⟨(cache_set_get_spec [] "k" respOk 60 1000).2.1 1059 (by decide),
   ((cache_set_get_spec [] "k" respOk 60 1000).2.2 1061 (by decide)).1⟩

/-- C5: with the `Math.random()` draw `r ∈ [0,1)` injected,
`calculateBackoff` returns `min(10000, baseDelay * 2^attempt * jitter)`
with `jitter = r * 0.3 + 0.85 ∈ [0.85, 1.15)`; the returned delay never
exceeds 10000 ms; the default base delay is 300; for a fixed draw the
result is a function of the attempt alone. -/
theorem calculateBackoff_spec (attempt : Nat) (baseDelay r : ℚ)
    (h0 : 0 ≤ r) (h1 : r < 1) :
    calculateBackoffWith attempt baseDelay r
      = min 10000 (baseDelay * 2 ^ attempt * (r * (3 / 10) + 17 / 20))
    ∧ 17 / 20 ≤ r * (3 / 10) + 17 / 20
    ∧ r * (3 / 10) + 17 / 20 < 23 / 20
    ∧ calculateBackoffWith attempt baseDelay r ≤ 10000
    ∧ calculateBackoff attempt r = calculateBackoffWith attempt 300 r := by
  refine ⟨rfl, by linarith, by linarith, ?_, rfl⟩
  unfold calculateBackoffWith
  exact min_le_left _ _

/-- Witness for C5 at attempt 3, base delay 300 and draw 0. -/
theorem calculateBackoff_spec_witness :
    calculateBackoffWith 3 300 0
      = min 10000 (300 * 2 ^ 3 * (0 * (3 / 10) + 17 / 20))
    ∧ calculateBackoffWith 3 300 0 ≤ 10000 :=
  ⟨(calculateBackoff_spec 3 300 0 (le_refl 0) zero_lt_one).1,
   (calculateBackoff_spec 3 300 0 (le_refl 0) zero_lt_one).2.2.2.1⟩

/-- C10: a falsy option value is silently replaced by the default:
`maxRetries = 0` yields an effective 3 and `cacheTime = 0` yields 60000
(the `||` defaulting), so retries cannot be disabled through
`maxRetries`; auto-retry is disabled exactly by `autoRetry = false`. -/
theorem constructor_falsy_defaults (o : ApiServiceOptions) :
    (o.maxRetries = some 0 → (mkServiceConfig o).maxRetries = 3)
    ∧ (o.cacheTime = some 0 → (mkServiceConfig o).cacheTime = 60000)
    ∧ ((mkServiceConfig o).autoRetry = false ↔ o.autoRetry = some false) := by
  refine ⟨?_, ?_, ?_⟩
  · intro h; simp [mkServiceConfig, jsOrDefault, h]
  · intro h; simp [mkServiceConfig, jsOrDefault, h]
  · simp [mkServiceConfig]

/-- Witness for C10: options with `maxRetries = 0` and `cacheTime = 0`
produce the defaults 3 and 60000. -/
theorem constructor_falsy_defaults_witness :
    (mkServiceConfig optsZero).maxRetries = 3
    ∧ (mkServiceConfig optsZero).cacheTime = 60000 :=
  ⟨(constructor_falsy_defaults optsZero).1 rfl,
   (constructor_falsy_defaults optsZero).2.1 rfl⟩

/-- C6 (behaviour of the code at the claim's scenario): `dispose` invokes
the cancel handle of every entry of the pending-request registry and
leaves the registry empty, but the periodic cache-sweep interval started
by the `KolcoinApiService` constructor is still active after disposal —
the interval id is discarded at construction and no reachable statement
calls `clearInterval`, so the sweep keeps running. -/
theorem dispose_leaves_sweep_timer_active (exec : ExecState) (listeners : List String) :
    (dispose (constructSdkState exec listeners)).exec.pending = []
    ∧ (dispose (constructSdkState exec listeners)).exec.cancelled
        = exec.cancelled ++ exec.pending.map Prod.snd
    ∧ (dispose (constructSdkState exec listeners)).sweepTimerActive = true :=
  ⟨rfl, rfl, rfl⟩

/-- C8: a wallet that fails the address validator short-circuits each of
the four domain methods with an `INVALID_WALLET` envelope and a
completely unchanged instance state — no network call, no cache entry,
no pending-request entry. -/
theorem invalid_wallet_short_circuit (sc : ServiceConfig) (env : Env)
    (wallet : String) (st : ExecState)
    (hw : isValidSolanaAddress wallet = false) :
    checkVerificationStatus sc env wallet st = (invalidWalletResp, st)
    ∧ checkWhitelistStatus sc env wallet st = (invalidWalletResp, st)
    ∧ getKolMetrics sc env wallet st = (invalidWalletResp, st)
    ∧ (∀ p : TransactionParams, p.«from» = wallet ∨ p.«to» = wallet →
        transferTokens sc env p st = (invalidWalletsResp, st)) := by
  refine ⟨?_, ?_, ?_, ?_⟩
  · unfold checkVerificationStatus; rw [hw]; rfl
  · unfold checkWhitelistStatus; rw [hw]; rfl
  · unfold getKolMetrics; rw [hw]; rfl
  · intro p hp
    unfold transferTokens
    rcases hp with h | h
    · rw [h, hw]; rfl
    · rw [h, hw]; simp

/-- Witness for C8: the invalid wallet "bad" short-circuits the
verification check and (as the sender) the transfer. -/
theorem invalid_wallet_short_circuit_witness :
    checkVerificationStatus scDefault envAlwaysOk "bad" stEmpty
      = (invalidWalletResp, stEmpty)
    ∧ transferTokens scDefault envAlwaysOk
        { «from» := "bad", «to» := addrB, amount := 5, memo := none } stEmpty
      = (invalidWalletsResp, stEmpty) :=
  ⟨(invalid_wallet_short_circuit scDefault envAlwaysOk "bad" stEmpty (by decide)).1,
   (invalid_wallet_short_circuit scDefault envAlwaysOk "bad" stEmpty (by decide)).2.2.2
     { «from» := "bad", «to» := addrB, amount := 5, memo := none } (Or.inl rfl)⟩

/-- C9: a transfer between valid wallets with `amount ≤ 0` short-circuits
with an `INVALID_AMOUNT` envelope and a completely unchanged instance
state — no network call, cache and pending registry untouched. -/
theorem transfer_invalid_amount (sc : ServiceConfig) (env : Env)
    (p : TransactionParams) (st : ExecState)
    (hf : isValidSolanaAddress p.«from» = true)
    (ht : isValidSolanaAddress p.«to» = true)
    (ha : p.amount ≤ 0) :
    transferTokens sc env p st = (invalidAmountResp, st) := by
  unfold transferTokens
  rw [hf, ht]
  simp [ha]

/-- Witness for C9: the claim's example — a transfer of amount 0 from the
all-ones wallet to the all-twos wallet yields exactly the
`INVALID_AMOUNT` envelope with the state unchanged. -/
theorem transfer_invalid_amount_witness :
    transferTokens scDefault envAlwaysOk pTransferZero stEmpty
      = (invalidAmountResp, stEmpty) :=
  transfer_invalid_amount scDefault envAlwaysOk pTransferZero stEmpty
    (by decide) (by decide) (le_refl 0)

/-- C7: a `transferTokens` call never touches the cache — with
`useCache:false` the executor's cache lookup is skipped on every attempt
and the success write is guarded by `useCache`, so the cache is identical
before and after the call; when the validations pass the run performs at
least one fresh network call, so the returned envelope is never a cached
value. -/
theorem transferTokens_cache_frame (sc : ServiceConfig) (env : Env)
    (p : TransactionParams) (st : ExecState) :
    (transferTokens sc env p st).2.cache = st.cache
    ∧ (isValidSolanaAddress p.«from» = true →
        isValidSolanaAddress p.«to» = true → 0 < p.amount →
        st.netCalls + 1 ≤ (transferTokens sc env p st).2.netCalls) := by
  constructor
  · unfold transferTokens
    by_cases h1 : (!isValidSolanaAddress p.«from» || !isValidSolanaAddress p.«to») = true
    · rw [if_pos h1]
    · rw [if_neg h1]
      by_cases h2 : p.amount ≤ 0
      · rw [if_pos h2]
      · rw [if_neg h2]
        exact (executeRequest_run_spec (sc.maxRetries - 0) sc env _ false false 0 st
          (le_refl _) rfl).2.2.1 rfl
  · intro hf ht ha
    unfold transferTokens
    rw [hf, ht]
    rw [if_neg (by simp : ¬((!true || !true) = true))]
    rw [if_neg (by exact not_le.mpr ha : ¬(p.amount ≤ 0))]
    exact (executeRequest_run_spec (sc.maxRetries - 0) sc env _ false false 0 st
      (le_refl _) rfl).2.2.2.1

/-- Witness for C7: a valid transfer leaves the empty cache empty and
performs at least one network call. -/
theorem transferTokens_cache_frame_witness :
    (transferTokens scDefault envAlwaysOk pTransferValid stEmpty).2.cache = stEmpty.cache
    ∧ stEmpty.netCalls + 1
        ≤ (transferTokens scDefault envAlwaysOk pTransferValid stEmpty).2.netCalls :=
  ⟨(transferTokens_cache_frame scDefault envAlwaysOk pTransferValid stEmpty).1,
   (transferTokens_cache_frame scDefault envAlwaysOk pTransferValid stEmpty).2
     (by decide) (by decide) zero_lt_one⟩

/-- C4: the pending-request registry holds at most one entry per key:
when a run reaches the network while an in-flight entry exists for its
key, that entry's cancel handle is invoked before the new one is
registered; over the whole run the final registry is exactly the initial
one with the key removed (no duplicate is ever created, other keys are
untouched), so on settlement the key is absent from the registry. -/
theorem pending_registry_unique (sc : ServiceConfig) (env : Env)
    (config : ApiRequestConfig) (u b : Bool) (rc : Nat) (st : ExecState)
    (hmiss : u = true → b = false →
      (cacheGet st.now st.cache (createRequestId config)).1 = none) :
    (∀ h0, mapGet st.pending (createRequestId config) = some h0 →
        h0 ∈ (executeRequest sc env config u b rc st).2.cancelled)
    ∧ (executeRequest sc env config u b rc st).2.pending
        = mapDelete st.pending (createRequestId config)
    ∧ mapGet (executeRequest sc env config u b rc st).2.pending
        (createRequestId config) = none := by
  rw [executeRequest_step sc env config u b rc st hmiss]
  cases hout : env.net st.netCalls with
  | thrown msg =>
    refine ⟨?_, settledAt_pending _ _ _ _, ?_⟩
    · intro h0 hh; exact settledAt_cancelled_of_get config u b st h0 hh
    · show mapGet (settledAt config u b st).pending (createRequestId config) = none
      rw [settledAt_pending]
      exact mapGet_mapDelete_self _ _
  | normal response =>
    dsimp only
    by_cases hc : response.success = false ∧ sc.autoRetry = true ∧
        rc < sc.maxRetries ∧ shouldRetryResp response = true
    · rw [if_pos hc]
      obtain ⟨p1, p2, -, -, -⟩ :=
        executeRequest_run_spec (sc.maxRetries - (rc + 1)) sc env config u true (rc + 1)
          (retryState env config u b rc st) (le_refl _) (by simp)
      refine ⟨?_, ?_, ?_⟩
      · intro h0 hh
        exact p2 h0 (retryState_cancelled_of_get env config u b rc st h0 hh)
      · rw [p1, retryState_pending, mapDelete_idem]
      · rw [p1, retryState_pending, mapDelete_idem]
        exact mapGet_mapDelete_self _ _
    · rw [if_neg hc]
      by_cases hsu : (response.success && u) = true
      · rw [if_pos hsu]
        refine ⟨?_, settledAt_pending _ _ _ _, ?_⟩
        · intro h0 hh; exact settledAt_cancelled_of_get config u b st h0 hh
        · show mapGet (settledAt config u b st).pending (createRequestId config) = none
          rw [settledAt_pending]
          exact mapGet_mapDelete_self _ _
      · rw [if_neg hsu]
        refine ⟨?_, settledAt_pending _ _ _ _, ?_⟩
        · intro h0 hh; exact settledAt_cancelled_of_get config u b st h0 hh
        · show mapGet (settledAt config u b st).pending (createRequestId config) = none
          rw [settledAt_pending]
          exact mapGet_mapDelete_self _ _

/-- Witness for C4: a run over a registry already holding handle 7 for
the same key cancels handle 7 and ends with the key unregistered. -/
theorem pending_registry_unique_witness :
    7 ∈ (executeRequest scDefault envAlways404 cfgSample true false 0
          stWithPending).2.cancelled
    ∧ mapGet (executeRequest scDefault envAlways404 cfgSample true false 0
          stWithPending).2.pending (createRequestId cfgSample) = none :=
  ⟨(pending_registry_unique scDefault envAlways404 cfgSample true false 0
      stWithPending (fun _ _ => rfl)).1 7 (by decide),
   (pending_registry_unique scDefault envAlways404 cfgSample true false 0
      stWithPending (fun _ _ => rfl)).2.2⟩

/-- C1: for a run that reaches the network and whose call settles in an
error envelope, the request is retried — recursing with the attempt
incremented by 1, `bypassCache := true`, and the awaited backoff delay
recorded — exactly when auto-retry is enabled, the attempt count is
strictly below `maxRetries`, and the error code starts with `HTTP_5` or
equals `NETWORK_ERROR`; in every other error case the envelope is
returned as-is after exactly one network call; over the whole run the
total number of network calls is bounded by `maxRetries - retryCount + 1`,
so at most `maxRetries` retries ever occur for one logical request. -/
theorem retry_policy (sc : ServiceConfig) (env : Env) (config : ApiRequestConfig)
    (u b : Bool) (rc : Nat) (st : ExecState) (resp : ApiResponse)
    (hmiss : u = true → b = false →
      (cacheGet st.now st.cache (createRequestId config)).1 = none)
    (hnet : env.net st.netCalls = NetOutcome.normal resp)
    (herr : resp.success = false) :
    (sc.autoRetry = true ∧ rc < sc.maxRetries ∧ shouldRetryResp resp = true →
      executeRequest sc env config u b rc st
        = executeRequest sc env config u true (rc + 1) (retryState env config u b rc st)
      ∧ (retryState env config u b rc st).delays
          = st.delays ++ [calculateBackoff rc (env.rand st.delays.length)])
    ∧ (¬(sc.autoRetry = true ∧ rc < sc.maxRetries ∧ shouldRetryResp resp = true) →
      executeRequest sc env config u b rc st = (resp, settledAt config u b st)
      ∧ (settledAt config u b st).netCalls = st.netCalls + 1)
    ∧ (executeRequest sc env config u b rc st).2.netCalls
        ≤ st.netCalls + (sc.maxRetries - rc) + 1 := by
  rw [executeRequest_step sc env config u b rc st hmiss, hnet]
  dsimp only
  refine ⟨?_, ?_, ?_⟩
  · intro hc
    rw [if_pos ⟨herr, hc.1, hc.2.1, hc.2.2⟩]
    exact ⟨rfl, retryState_delays env config u b rc st⟩
  · intro hc
    have hc' : ¬(resp.success = false ∧ sc.autoRetry = true ∧
        rc < sc.maxRetries ∧ shouldRetryResp resp = true) := by
      intro h; exact hc ⟨h.2.1, h.2.2.1, h.2.2.2⟩
    rw [if_neg hc', if_neg (by rw [herr]; simp : ¬((resp.success && u) = true))]
    exact ⟨rfl, settledAt_netCalls _ _ _ _⟩
  · by_cases hc : resp.success = false ∧ sc.autoRetry = true ∧
        rc < sc.maxRetries ∧ shouldRetryResp resp = true
    · rw [if_pos hc]
      obtain ⟨-, -, -, -, p5⟩ :=
        executeRequest_run_spec (sc.maxRetries - (rc + 1)) sc env config u true (rc + 1)
          (retryState env config u b rc st) (le_refl _) (by simp)
      have h1 := retryState_netCalls env config u b rc st
      have h2 := hc.2.2.1
      omega
    · rw [if_neg hc, if_neg (by rw [herr]; simp : ¬((resp.success && u) = true))]
      show (settledAt config u b st).netCalls ≤ st.netCalls + (sc.maxRetries - rc) + 1
      rw [settledAt_netCalls]
      omega

/-- Witness for C1: with default options (auto-retry on, `maxRetries` 3)
a first attempt answered `HTTP_500` recurses with attempt 1 and
`bypassCache := true`. -/
theorem retry_policy_witness :
    executeRequest scDefault envAlways500 cfgSample true false 0 stEmpty
      = executeRequest scDefault envAlways500 cfgSample true true 1
          (retryState envAlways500 cfgSample true false 0 stEmpty) :=
  ((retry_policy scDefault envAlways500 cfgSample true false 0 stEmpty resp500
      (fun _ _ => rfl) rfl rfl).1 ⟨by decide, by decide, by decide⟩).1
